import Mathlib

/-!
Verification of the SSH desktop-application backend (Rust sources under
`src/src-tauri/src/`) against its natural-language specification.

The Rust code is shallowly embedded: each `async fn` of the session manager
is modelled as an atomic transformer on a `SM` state record (every map access
in the source holds the corresponding `RwLock` for the whole operation, and
the claims under study are about the sequential effect of each operation).
Side effects that leave the pure state (disconnecting a client, signalling a
cancellation token, spawning a detached background send) are recorded in an
event trace. Byte payloads are `List Nat`; text is `List Char`;
machine-external outcomes (the TCP connect, the SSH channel setup, the bytes
a server returns) are explicit parameters.

Note on the source tree: `src/src-tauri/src/ssh/pty_session.rs` is not
declared in any `mod` statement (`lib.rs` declares `ssh`, `session_manager`,
`commands`, `websocket_server`; `ssh/mod.rs` declares only `tests`), so the
`PtySession` type that the running crate uses is the one defined in
`ssh/mod.rs` (fields `input_tx`, `output_rx`, `channel_id`, no `is_closed`
flag and no validation). The unwired file is embedded separately below,
clearly marked, only to document the divergence.
-/

namespace Ssh

/-- Pointwise-update of a string-keyed map, mirroring `HashMap::insert` /
`HashMap::remove` (insert when the new value is `some`, remove when `none`).
A Rust `HashMap` holds at most one value per key; the function representation
`String → Option α` has the same per-key uniqueness by construction. -/
def upd {α : Type} (m : String → Option α) (k : String) (v : Option α) :
    String → Option α :=
  fun k' => if k' = k then v else m k'

/-- The live PTY handle (`ssh/mod.rs`, `pub struct PtySession`): an input
queue sender (`input_tx`, bounded mpsc of capacity 1000), an output queue
receiver (`output_rx`, bounded mpsc of capacity 2000) and a channel id.
We model the observable queue state: the buffered input payloads, whether the
input receiver has been dropped (the input pump exited), the buffered output
payloads, and whether the output sender has been dropped. -/
structure Pty where
  inQueue : List (List Nat)
  inClosed : Bool
  outQueue : List (List Nat)
  outClosed : Bool
deriving DecidableEq, Repr

/-- A freshly created PTY: empty queues, both pumps running
(`create_pty_session` in `ssh/mod.rs`). -/
def mkPty : Pty :=
  { inQueue := [], inClosed := false, outQueue := [], outClosed := false }

/-- `input_tx` capacity (`mpsc::channel::<Vec<u8>>(1000)` in
`create_pty_session`): `try_send` reports `Full` at this length. -/
def inputQueueCapacity : Nat := 1000

/-- The `SessionManager` state (`session_manager.rs`): three string-keyed
maps. An `SshClient` carries only identity-irrelevant handles for the claims
studied here, so the stored client is `Unit`; a pending `CancellationToken`
is likewise `Unit`. -/
structure SM where
  sessions : String → Option Unit
  ptys : String → Option Pty
  pending : String → Option Unit

/-- Events recording the side effects an operation performs outside the
`SM` maps. -/
inductive Ev
  /-- a `pty_sessions` entry was removed (its `Arc` dropped) -/
  | removedPty (id : String)
  /-- `SshClient::disconnect` was called on the removed client -/
  | disconnectedClient (id : String)
  /-- `CancellationToken::cancel` was called on the removed token -/
  | cancelSignal (id : String)
  /-- `write_to_pty` spawned a detached task running `input_tx.send(data)`
  with no timeout and a discarded result -/
  | spawnedBackgroundSend (id : String) (data : List Nat)
deriving DecidableEq, Repr

/-- Error values returned by the embedded operations; each constructor
corresponds to one `anyhow!` message of the source. -/
inductive SmError
  /-- msg `Session not found` (`start_pty_session`) -/
  | sessionNotFound
  /-- msg `PTY session not found` (`write_to_pty` / `read_from_pty`) -/
  | ptyNotFound
  /-- msg `PTY channel closed` (`write_to_pty`, `try_send` → `Closed`) -/
  | ptyChannelClosed
  /-- msg `PTY session closed` (`read_from_pty`, receiver disconnected) -/
  | ptySessionClosed
  /-- msg `Connection cancelled by user` (`create_session`) -/
  | cancelled
  /-- any error propagated out of `SshClient::connect` -/
  | connectFailed
  /-- msg `Not connected` (`SshClient` with no transport handle) -/
  | notConnected
  /-- failure of `channel_open_session` / `request_pty` / `request_shell` -/
  | channelSetupFailed
  /-- msg `Invalid terminal size: ...` — produced only by the unwired
  `pty_session.rs`, never by the live code -/
  | badTerminalSize
  /-- msg `Data too large: ... (max 1MB)` — unwired `pty_session.rs` only -/
  | payloadTooLarge
  /-- msg `Write timeout: input buffer full` — unwired `pty_session.rs` -/
  | writeTimeout
deriving DecidableEq, Repr

/-- `SessionManager::get_session` (session_manager.rs:69): clone of the
map entry. -/
def get_session (st : SM) (id : String) : Option Unit :=
  st.sessions id

/-- `SessionManager::close_pty_session` (session_manager.rs:186): removes the
entry from `pty_sessions` (no `close()` call — the live `PtySession` has
none; dropping the `Arc` is the teardown) and always returns `Ok(())`. -/
def close_pty_session (st : SM) (id : String) : SM × List Ev :=
  (⟨st.sessions, upd st.ptys id none, st.pending⟩,
   if (st.ptys id).isSome then [Ev.removedPty id] else [])

/-- `SessionManager::close_session` (session_manager.rs:74): first
`close_pty_session(id)` (its error, which cannot occur, would be swallowed),
then remove the client from `sessions` and call `disconnect` on it if it was
present. `disconnect` aborts the forwarder tasks and closes the transport;
a transport-level failure of the final disconnect is abstracted away (the
map removal has already happened when it is awaited). -/
def close_session (st : SM) (id : String) : SM × List Ev :=
  let r := close_pty_session st id
  match r.1.sessions id with
  | some _ =>
      (⟨upd r.1.sessions id none, r.1.ptys, r.1.pending⟩,
       r.2 ++ [Ev.disconnectedClient id])
  | none => r

/-- Outcome of the `tokio::select!` racing `client.connect(&config)` against
`cancel_token.cancelled()` in `create_session`: the connect finished first
and succeeded, finished first and failed, or the token fired first. -/
inductive ConnectOutcome
  | success
  | failed
  | cancelled
deriving DecidableEq, Repr

/-- `SessionManager::create_session` (session_manager.rs:23): best-effort
`close_session(id)` (errors swallowed); register a fresh cancellation token
under `id`; race connect against cancellation (`outcome`); clear the token
regardless of outcome; propagate a connect error / cancellation; only on
success insert the new client into `sessions`. -/
def create_session (st : SM) (id : String) (outcome : ConnectOutcome) :
    SM × List Ev × Except SmError Unit :=
  let c := close_session st id
  let st1 : SM := ⟨c.1.sessions, c.1.ptys, upd c.1.pending id (some ())⟩
  let st2 : SM := ⟨st1.sessions, st1.ptys, upd st1.pending id none⟩
  match outcome with
  | .cancelled => (st2, c.2, .error .cancelled)
  | .failed => (st2, c.2, .error .connectFailed)
  | .success =>
      (⟨upd st2.sessions id (some ()), st2.ptys, st2.pending⟩, c.2, .ok ())

/-- `SessionManager::cancel_pending_connection` (session_manager.rs:59):
remove the token; if one was there, signal it and return `true`, else
`false`. -/
def cancel_pending_connection (st : SM) (id : String) :
    SM × List Ev × Bool :=
  match st.pending id with
  | some _ =>
      (⟨st.sessions, st.ptys, upd st.pending id none⟩,
       [Ev.cancelSignal id], true)
  | none => (st, [], false)

/-- `SshClient::create_pty_session` (ssh/mod.rs:327): fails with
`Not connected` when there is no transport; otherwise opens a channel,
requests a PTY with the given `cols`/`rows` (the values are sent to the
server, never validated or stored) and a shell — `channelOk` abstracts the
success of these three channel operations — and returns a fresh handle with
empty queues. -/
def create_pty_session (connected : Bool) (channelOk : Bool)
    (_cols _rows : Nat) : Except SmError Pty :=
  if connected then
    if channelOk then .ok mkPty else .error .channelSetupFailed
  else .error .notConnected

/-- `SessionManager::start_pty_session` (session_manager.rs:97): look up the
SSH client (`Session not found` when absent), call `create_pty_session`, and
store the result under `id` in `pty_sessions`. -/
def start_pty_session (st : SM) (id : String) (cols rows : Nat)
    (channelOk : Bool) : SM × Except SmError Unit :=
  match st.sessions id with
  | none => (st, .error .sessionNotFound)
  | some _ =>
      match create_pty_session true channelOk cols rows with
      | .error e => (st, .error e)
      | .ok p => (⟨st.sessions, upd st.ptys id (some p), st.pending⟩, .ok ())

/-- `SessionManager::write_to_pty` (session_manager.rs:123): look up the PTY
(`PTY session not found` when absent) and `try_send` the payload unchanged —
there is no check of the `sessions` map, of the payload size, or for an empty
payload. `try_send`: `Closed` when the input receiver is gone
(`PTY channel closed`); `Full` at capacity, in which case a detached task is
spawned to `send` in the background and `Ok(())` is returned immediately;
otherwise the payload is enqueued. -/
def write_to_pty (st : SM) (id : String) (data : List Nat) :
    SM × List Ev × Except SmError Unit :=
  match st.ptys id with
  | none => (st, [], .error .ptyNotFound)
  | some p =>
      if p.inClosed then (st, [], .error .ptyChannelClosed)
      else if p.inQueue.length < inputQueueCapacity then
        (⟨st.sessions, upd st.ptys id (some { p with inQueue := p.inQueue ++ [data] }),
          st.pending⟩, [], .ok ())
      else (st, [Ev.spawnedBackgroundSend id data], .ok ())

/-- `SessionManager::read_from_pty` (session_manager.rs:152): look up the PTY
(`PTY session not found` when absent); `try_recv` on the output queue —
data if buffered, `PTY session closed` if the queue is empty and its sender
is gone; otherwise wait up to 1 ms and return empty bytes on timeout (in the
sequential model no producer runs during the wait, so the empty open queue
times out). The `sessions` map is not consulted. -/
def read_from_pty (st : SM) (id : String) :
    SM × List Ev × Except SmError (List Nat) :=
  match st.ptys id with
  | none => (st, [], .error .ptyNotFound)
  | some p =>
      match p.outQueue with
      | d :: rest =>
          (⟨st.sessions, upd st.ptys id (some { p with outQueue := rest }),
            st.pending⟩, [], .ok d)
      | [] =>
          if p.outClosed then (st, [], .error .ptySessionClosed)
          else (st, [], .ok [])

/-- `PtySession::create`'s terminal-size validation (pty_session.rs:32) —
**unwired code**: `ssh/pty_session.rs` is not declared in any `mod`
statement, so this check is unreachable from the running crate. It is
embedded only to document what the wired path (`create_pty_session` in
`ssh/mod.rs`) omits. -/
def unwired_pty_create_size_check (cols rows : Nat) : Except SmError Unit :=
  if cols = 0 ∨ rows = 0 ∨ cols > 1000 ∨ rows > 1000 then
    .error .badTerminalSize
  else .ok ()

/-- `PtySession::write`'s payload checks (pty_session.rs:240) — **unwired
code**, see `unwired_pty_create_size_check`: rejects a closed session,
returns `Ok` without enqueueing for an empty payload, rejects more than
1,000,000 bytes; the returned `Bool` says whether the enqueue is reached. -/
def unwired_pty_write_checks (closedFlag : Bool) (dataLen : Nat) :
    Except SmError Bool :=
  if closedFlag then .error .ptySessionClosed
  else if dataLen = 0 then .ok false
  else if dataLen > 1000000 then .error .payloadTooLarge
  else .ok true

/-- The unwired `pty_session.rs` implements exactly the checks §4.2 of the
specification describes; evaluated here at the inputs used against the wired
path below. -/
theorem unwired_checks_match_spec :
    unwired_pty_create_size_check 0 2000 = Except.error SmError.badTerminalSize ∧
    unwired_pty_create_size_check 80 24 = Except.ok () ∧
    unwired_pty_write_checks false 1000001 = Except.error SmError.payloadTooLarge ∧
    unwired_pty_write_checks false 0 = Except.ok false :=
  ⟨rfl, rfl, rfl, rfl⟩

/-- A session identifier used by the concrete witnesses below. -/
def keyA : String := "a"

/-- A second session identifier, with no entries anywhere. -/
def keyB : String := "b"

/-- **C1.** After `close_session(id)` returns, the session is fully torn
down in order: the trace shows the PTY entry removed first, then the SSH
client disconnected (each exactly when it was present); afterwards
`get_session(id)` is `none`, the `pty_sessions` entry is gone, and both
`write_to_pty(id)` and `read_from_pty(id)` fail with the
`PTY session not found` error. -/
theorem close_session_full_teardown (st : SM) (id : String) :
    get_session (close_session st id).1 id = none ∧
    (close_session st id).1.ptys id = none ∧
    (∀ d, (write_to_pty (close_session st id).1 id d).2.2 =
      Except.error SmError.ptyNotFound) ∧
    (read_from_pty (close_session st id).1 id).2.2 =
      Except.error SmError.ptyNotFound ∧
    (close_session st id).2 =
      (if (st.ptys id).isSome then [Ev.removedPty id] else []) ++
      (if (st.sessions id).isSome then [Ev.disconnectedClient id] else []) := by
  unfold close_session close_pty_session get_session write_to_pty read_from_pty
  cases h : st.sessions id <;> simp [h, upd]

/-- **C2.** The pending-connection lifecycle: `create_session` clears the
`pending_connections[id]` entry before returning whatever the outcome of the
connect race was; a cancelled connect yields the `Connection cancelled by
user` error and a failed one the connect error; the client is installed in
`sessions[id]` exactly on success. `cancel_pending_connection` removes the
token, signals it exactly when one existed, and returns whether one existed.
(Per-id uniqueness of the pending entry is structural: the map is keyed by
`id`.) -/
theorem create_session_pending_lifecycle (st : SM) (id : String)
    (outcome : ConnectOutcome) :
    (create_session st id outcome).1.pending id = none ∧
    (create_session st id outcome).2.2 =
      (match outcome with
       | .cancelled => Except.error SmError.cancelled
       | .failed => Except.error SmError.connectFailed
       | .success => Except.ok ()) ∧
    (create_session st id outcome).1.sessions id =
      (match outcome with
       | .success => some ()
       | _ => none) ∧
    (cancel_pending_connection st id).2.2 = (st.pending id).isSome ∧
    (cancel_pending_connection st id).1.pending id = none ∧
    (cancel_pending_connection st id).2.1 =
      (if (st.pending id).isSome then [Ev.cancelSignal id] else []) := by
  cases outcome <;> cases h : st.sessions id <;> cases hp : st.pending id <;>
    simp [create_session, close_session, close_pty_session,
      cancel_pending_connection, h, hp, upd]

/-- **C10.** If `create_session(id, config)` returns an error (connect
failure or cancellation), then afterwards `get_session(id)` is `none` — the
new client was never installed — and when a session was previously stored
under `id`, its client was disconnected by the initial best-effort close. -/
theorem create_session_error_leaves_no_session (st : SM) (id : String)
    (outcome : ConnectOutcome) (h : outcome ≠ ConnectOutcome.success) :
    get_session (create_session st id outcome).1 id = none ∧
    ((st.sessions id).isSome = true →
      Ev.disconnectedClient id ∈ (create_session st id outcome).2.1) := by
  cases outcome
  case success => exact absurd rfl h
  all_goals
    cases hs : st.sessions id <;>
      simp [create_session, close_session, close_pty_session, get_session,
        hs, upd]

/-- A state holding a previously connected session under `keyA`, used to
witness `create_session_error_leaves_no_session`. -/
def stPrior : SM :=
  ⟨upd (fun _ => none) keyA (some ()), fun _ => none, fun _ => none⟩

/-- Witness for **C10** at a concrete input: a failed reconnect for `"a"`
leaves no session and the prior client was disconnected. -/
theorem create_session_error_witness :
    get_session (create_session stPrior keyA ConnectOutcome.failed).1 keyA
      = none ∧
    Ev.disconnectedClient keyA ∈
      (create_session stPrior keyA ConnectOutcome.failed).2.1 := by
  have h := create_session_error_leaves_no_session stPrior keyA
    ConnectOutcome.failed (by decide)
  exact ⟨h.1, h.2 (by decide)⟩

/-- **C4, counterexample.** With a connected session `"a"` and a channel
setup that succeeds, `start_pty_session` with `cols = 0`, `rows = 2000` —
both outside `[1, 1000]` — returns `Ok` and stores a PTY, instead of failing
with a `BadTerminalSize` error and storing nothing as the claim states. -/
theorem start_pty_session_accepts_bad_size :
    (start_pty_session stPrior keyA 0 2000 true).2 = Except.ok () ∧
    (start_pty_session stPrior keyA 0 2000 true).1.ptys keyA = some mkPty :=
  ⟨rfl, rfl⟩

/-- **C4, amended.** The wired `start_pty_session` performs no terminal-size
validation: for every `cols` and `rows` whatsoever, it succeeds exactly when
the SSH session exists and the channel setup succeeds, it stores the PTY
under `id` exactly on success (leaving `pty_sessions` unchanged on failure),
and it never touches the `sessions` map. The `1 ≤ cols, rows ≤ 1000` check
exists only in the unwired `pty_session.rs`
(see `unwired_pty_create_size_check`). -/
theorem start_pty_session_no_size_validation (st : SM) (id : String)
    (cols rows : Nat) (channelOk : Bool) :
    ((start_pty_session st id cols rows channelOk).2 = Except.ok () ↔
      ((st.sessions id).isSome = true ∧ channelOk = true)) ∧
    (start_pty_session st id cols rows channelOk).1.ptys id =
      (if (st.sessions id).isSome = true ∧ channelOk = true then some mkPty
       else st.ptys id) ∧
    (start_pty_session st id cols rows channelOk).1.sessions = st.sessions := by
  cases hs : st.sessions id <;> cases channelOk <;>
    simp [start_pty_session, create_pty_session, hs, upd]

/-- A state with a connected session and a fresh open PTY under `keyA`. -/
def stPty : SM :=
  ⟨upd (fun _ => none) keyA (some ()),
   upd (fun _ => none) keyA (some mkPty), fun _ => none⟩

/-- A 1,000,001-byte payload: one byte above the limit the claim states. -/
def bigPayload : List Nat := List.replicate 1000001 65

/-- `bigPayload` is larger than 1,000,000 bytes. -/
theorem bigPayload_large : 1000000 < bigPayload.length := by
  unfold bigPayload
  rw [List.length_replicate]
  omega

/-- **C5, counterexample.** A 1,000,001-byte payload — larger than the
claimed 1,000,000-byte limit — is accepted by `write_to_pty` and enqueued
whole on the input queue, instead of being rejected with `PayloadTooLarge`
with nothing enqueued. -/
theorem write_to_pty_accepts_oversized_payload :
    1000000 < bigPayload.length ∧
    (write_to_pty stPty keyA bigPayload).2.2 = Except.ok () ∧
    (write_to_pty stPty keyA bigPayload).1.ptys keyA =
      some { mkPty with inQueue := [bigPayload] } := by
  refine ⟨bigPayload_large, ?_, ?_⟩ <;>
    simp [write_to_pty, stPty, upd, mkPty, inputQueueCapacity]

/-- **C5, amended.** `write_to_pty` applies no payload checks at all: when
the PTY entry exists, its input queue is open and below capacity, every
payload — empty or larger than 1,000,000 bytes alike — is enqueued unchanged
and the call returns `Ok`; the only rejections are `PTY session not found`
(no entry, shown elsewhere) and `PTY channel closed` (input queue closed).
The closed/empty/1 MB checks exist only in the unwired `pty_session.rs`
(see `unwired_pty_write_checks`). -/
theorem write_to_pty_no_payload_checks (st : SM) (id : String) (p : Pty)
    (d : List Nat) (h : st.ptys id = some p) :
    (p.inClosed = true →
      (write_to_pty st id d).2.2 = Except.error SmError.ptyChannelClosed) ∧
    (p.inClosed = false → p.inQueue.length < inputQueueCapacity →
      (write_to_pty st id d).2.2 = Except.ok () ∧
      (write_to_pty st id d).1.ptys id =
        some { p with inQueue := p.inQueue ++ [d] }) := by
  constructor
  · intro hc
    simp [write_to_pty, h, hc]
  · intro hc hlen
    simp [write_to_pty, h, hc, hlen, upd]

/-- Witness for **C5** at a concrete input: the oversized payload from the
counterexample is enqueued via the amended theorem. -/
theorem write_to_pty_no_payload_checks_witness :
    (write_to_pty stPty keyA bigPayload).2.2 = Except.ok () ∧
    (write_to_pty stPty keyA bigPayload).1.ptys keyA =
      some { mkPty with inQueue := [bigPayload] } := by
  have h := write_to_pty_no_payload_checks stPty keyA mkPty bigPayload rfl
  exact h.2 rfl (by decide)

/-- A state whose PTY under `keyA` has its input queue at capacity
(1000 buffered payloads) and still open. -/
def ptyFull : Pty :=
  { inQueue := List.replicate 1000 [], inClosed := false,
    outQueue := [], outClosed := false }

/-- The session-manager state holding `ptyFull` under `keyA`. -/
def stFull : SM :=
  ⟨upd (fun _ => none) keyA (some ()),
   upd (fun _ => none) keyA (some ptyFull), fun _ => none⟩

/-- `ptyFull`'s input queue is at the `try_send` capacity. -/
theorem ptyFull_queue_length : ptyFull.inQueue.length = 1000 := by
  show (List.replicate 1000 ([] : List Nat)).length = 1000
  rw [List.length_replicate]

/-- **C7, counterexample.** When `try_send` finds the input queue full,
`write_to_pty` returns `Ok` immediately with the queue unchanged, merely
spawning a detached background `send` whose result is discarded — the
caller's result does not reflect any (5 s-bounded or otherwise) enqueue, un-
like the claim states. -/
theorem write_to_pty_full_queue_fire_and_forget :
    (write_to_pty stFull keyA [97]).2.2 = Except.ok () ∧
    (write_to_pty stFull keyA [97]).1.ptys keyA = some ptyFull ∧
    (write_to_pty stFull keyA [97]).2.1 =
      [Ev.spawnedBackgroundSend keyA [97]] := by
  have hlook : stFull.ptys keyA = some ptyFull := rfl
  have hcl : ptyFull.inClosed = false := rfl
  refine ⟨?_, ?_, ?_⟩ <;>
    simp [write_to_pty, hlook, hcl, ptyFull_queue_length, inputQueueCapacity]

/-- **C7, amended.** When the non-blocking enqueue finds the input queue
full, `write_to_pty` spawns a detached background task performing an untimed
`send` whose result is discarded, and itself returns `Ok` at once with the
state unchanged; a write against a closed input queue returns the
`PTY channel closed` error. The 5 s-bounded blocking fallback exists only in
the unwired `pty_session.rs`. -/
theorem write_to_pty_full_queue_background_send (st : SM) (id : String)
    (p : Pty) (d : List Nat) (h : st.ptys id = some p) :
    (p.inClosed = true →
      (write_to_pty st id d).2.2 = Except.error SmError.ptyChannelClosed) ∧
    (p.inClosed = false → inputQueueCapacity ≤ p.inQueue.length →
      (write_to_pty st id d).2.2 = Except.ok () ∧
      (write_to_pty st id d).2.1 = [Ev.spawnedBackgroundSend id d] ∧
      (write_to_pty st id d).1 = st) := by
  constructor
  · intro hc
    simp [write_to_pty, h, hc]
  · intro hc hlen
    simp [write_to_pty, h, hc, Nat.not_lt.mpr hlen]

/-- Witness for **C7** at a concrete input: a write into the full queue of
`stFull` goes through the amended theorem's full-queue branch. -/
theorem write_to_pty_full_queue_background_send_witness :
    (write_to_pty stFull keyA [98]).2.2 = Except.ok () ∧
    (write_to_pty stFull keyA [98]).2.1 =
      [Ev.spawnedBackgroundSend keyA [98]] ∧
    (write_to_pty stFull keyA [98]).1 = stFull := by
  have h := write_to_pty_full_queue_background_send stFull keyA ptyFull
    [98] rfl
  exact h.2 rfl (by rw [ptyFull_queue_length]; exact Nat.le_refl 1000)

/-- A state with a PTY under `keyA` but no SSH session at all — the
configuration C6 claims impossible to write to. -/
def stOrphan : SM :=
  ⟨fun _ => none, upd (fun _ => none) keyA (some mkPty), fun _ => none⟩

/-- **C6, counterexample.** With `pty_sessions["a"]` present but
`sessions["a"]` absent, `write_to_pty` succeeds (enqueueing user input) and
`read_from_pty` succeeds, instead of failing with a `NoSshSession` error as
the claim states: neither function consults the `sessions` map. -/
theorem write_to_orphan_pty_succeeds :
    get_session stOrphan keyA = none ∧
    (write_to_pty stOrphan keyA [97]).2.2 = Except.ok () ∧
    (read_from_pty stOrphan keyA).2.2 = Except.ok [] := by
  refine ⟨rfl, ?_, ?_⟩ <;>
    simp [write_to_pty, read_from_pty, stOrphan, upd, mkPty,
      inputQueueCapacity]

/-- **C6, amended.** `write_to_pty` and `read_from_pty` consult only the
`pty_sessions` map: their results (and their effect on that map) are
invariant under arbitrary changes to the rest of the state, and when no PTY
entry exists they fail with `PTY session not found` — no `NoSshSession`
check exists, so a write can reach a PTY whose SSH session entry is gone. -/
theorem pty_ops_ignore_sessions_map (st st' : SM) (id : String)
    (d : List Nat) (h : st.ptys = st'.ptys) :
    ((write_to_pty st id d).2 = (write_to_pty st' id d).2 ∧
     (write_to_pty st id d).1.ptys = (write_to_pty st' id d).1.ptys) ∧
    ((read_from_pty st id).2 = (read_from_pty st' id).2 ∧
     (read_from_pty st id).1.ptys = (read_from_pty st' id).1.ptys) ∧
    (st.ptys id = none →
      (write_to_pty st id d).2.2 = Except.error SmError.ptyNotFound ∧
      (read_from_pty st id).2.2 = Except.error SmError.ptyNotFound) := by
  unfold write_to_pty read_from_pty
  rw [h]
  cases hp : st'.ptys id
  · simp [hp, h]
  · rename_i p
    simp only [hp]
    cases hq : p.outQueue <;> split_ifs <;> simp [hq, h]

/-- Witness for **C6**: `stOrphan` (no sessions at all) and `stPty` (session
present) share the same `pty_sessions` map, and `write_to_pty` behaves
identically on them; under the unknown id `keyB` the failure is
`PTY session not found`. -/
theorem pty_ops_ignore_sessions_map_witness :
    (write_to_pty stOrphan keyA [97]).2 = (write_to_pty stPty keyA [97]).2 ∧
    (write_to_pty stOrphan keyB [97]).2.2 =
      Except.error SmError.ptyNotFound := by
  have h1 := pty_ops_ignore_sessions_map stOrphan stPty keyA [97] rfl
  have h2 := pty_ops_ignore_sessions_map stOrphan stPty keyB [97] rfl
  exact ⟨h1.1.1, (h2.2.2 (by decide)).1⟩

/-- A message delivered on the exec channel (`russh::ChannelMsg` as consumed
by `execute_command`): a `Data` payload, an `ExitStatus`, `Eof`, `Close`, or
any other variant (ignored by the loop's `_ => {}` arm). The end of the list
models `channel.wait()` returning `None`. -/
inductive Msg
  | data (payload : List Nat)
  | exitStatus (code : Nat)
  | eof
  | close
  | other
deriving DecidableEq, Repr

/-- Errors of `execute_command`: msg `Command failed with code: {:?}`
(carrying the observed `Option` code) and msg `Not connected`. -/
inductive ExecErr
  | commandFailed (code : Option Nat)
  | notConnected
deriving DecidableEq, Repr

/-- The message loop of `SshClient::execute_command` (ssh/mod.rs:260-286):
`Data` appends the lossily decoded payload to `output`; `ExitStatus` records
the code and breaks if `Eof` was already seen; `Eof` marks itself and breaks
if a code was already seen; `Close` and `None` break; everything else is
ignored. `decode` stands for `String::from_utf8_lossy` applied to one
payload (an external library function, kept parametric). -/
def execLoop (decode : List Nat → List Char) :
    List Msg → List Char → Option Nat → Bool → List Char × Option Nat
  | [], out, code, _ => (out, code)
  | .data d :: rest, out, code, eofR =>
      execLoop decode rest (out ++ decode d) code eofR
  | .exitStatus c :: rest, out, _, eofR =>
      if eofR then (out, some c) else execLoop decode rest out (some c) eofR
  | .eof :: rest, out, code, _ =>
      if code.isSome then (out, code) else execLoop decode rest out code true
  | .close :: _, out, code, _ => (out, code)
  | .other :: rest, out, code, eofR => execLoop decode rest out code eofR

/-- `SshClient::execute_command` (ssh/mod.rs:251-297): `Not connected` when
no transport handle is set; otherwise run the loop over the channel's
messages and decide success: code 0 ⇒ `Ok`, a non-zero code ⇒ error with
that code, no code ⇒ `Ok` iff the output is non-empty. -/
def execute_command (decode : List Nat → List Char) (connected : Bool)
    (msgs : List Msg) : Except ExecErr (List Char) :=
  if connected then
    let r := execLoop decode msgs [] none false
    match r.2 with
    | some 0 => .ok r.1
    | some c => .error (.commandFailed (some c))
    | none => if r.1 = [] then .error (.commandFailed none) else .ok r.1
  else .error .notConnected

/-- Formalisation of the claim's "observed before the channel ends": the
prefix of the message stream the loop consumes, cut at the terminating
message (`Close`, an `ExitStatus` arriving after `Eof`, an `Eof` arriving
after an `ExitStatus`, or the end of the stream). -/
def observedMsgs : List Msg → Option Nat → Bool → List Msg
  | [], _, _ => []
  | .data d :: rest, code, eofR => .data d :: observedMsgs rest code eofR
  | .exitStatus c :: rest, _, eofR =>
      if eofR then [.exitStatus c]
      else .exitStatus c :: observedMsgs rest (some c) eofR
  | .eof :: rest, code, _ =>
      if code.isSome then [.eof] else .eof :: observedMsgs rest code true
  | .close :: _, _, _ => [.close]
  | .other :: rest, code, eofR => .other :: observedMsgs rest code eofR

/-- The `Data` payload of a message, if any. -/
def dataOf : Msg → Option (List Nat)
  | .data d => some d
  | _ => none

/-- The last exit status carried by a message list, starting from `code` —
the claim's "observed code". -/
def lastExit (ms : List Msg) (code : Option Nat) : Option Nat :=
  ms.foldl (fun acc m => match m with | .exitStatus c => some c | _ => acc)
    code

/-- The loop's accumulated output is the initial accumulator followed by the
concatenated decodings of the `Data` payloads it observes. -/
theorem execLoop_fst (decode : List Nat → List Char) (msgs : List Msg) :
    ∀ (out : List Char) (code : Option Nat) (eofR : Bool),
      (execLoop decode msgs out code eofR).1 =
        out ++ (((observedMsgs msgs code eofR).filterMap dataOf).map
          decode).flatten := by
  induction msgs with
  | nil => intro out code eofR; simp [execLoop, observedMsgs]
  | cons m rest ih =>
    intro out code eofR
    cases m with
    | data d => simp [execLoop, observedMsgs, dataOf, ih]
    | exitStatus c =>
        by_cases heof : eofR <;>
          simp [execLoop, observedMsgs, dataOf, heof, ih]
    | eof =>
        cases hc : code <;> simp [execLoop, observedMsgs, dataOf, hc, ih]
    | close => simp [execLoop, observedMsgs, dataOf]
    | other => simp [execLoop, observedMsgs, dataOf, ih]

/-- The loop's final code is the last exit status among the observed
messages (the initial `code` if none arrives). -/
theorem execLoop_snd (decode : List Nat → List Char) (msgs : List Msg) :
    ∀ (out : List Char) (code : Option Nat) (eofR : Bool),
      (execLoop decode msgs out code eofR).2 =
        lastExit (observedMsgs msgs code eofR) code := by
  induction msgs with
  | nil => intro out code eofR; simp [execLoop, observedMsgs, lastExit]
  | cons m rest ih =>
    intro out code eofR
    cases m with
    | data d => simp [execLoop, observedMsgs, lastExit, ih]
    | exitStatus c =>
        by_cases heof : eofR <;>
          simp [execLoop, observedMsgs, lastExit, heof, ih]
    | eof =>
        cases hc : code <;> simp [execLoop, observedMsgs, lastExit, hc, ih]
    | close => simp [execLoop, observedMsgs, lastExit]
    | other => simp [execLoop, observedMsgs, lastExit, ih]

/-- **C3.** For every connected client and message stream,
`execute_command` returns the concatenation of the lossy decodings of all
`Data` payloads observed before the channel ends, and its success is decided
exactly by: observed code 0 ⇒ `Ok`; no observed code but non-empty output ⇒
`Ok`; every other case ⇒ an error carrying the observed code. -/
theorem execute_command_output_and_success
    (decode : List Nat → List Char) (msgs : List Msg) :
    execute_command decode true msgs =
      (let obs := observedMsgs msgs none false
       let out := ((obs.filterMap dataOf).map decode).flatten
       let code := lastExit obs none
       if code = some 0 ∨ (code = none ∧ out ≠ []) then Except.ok out
       else Except.error (ExecErr.commandFailed code)) := by
  have h1 := execLoop_fst decode msgs [] none false
  have h2 := execLoop_snd decode msgs [] none false
  cases hc : lastExit (observedMsgs msgs none false) none with
  | some n =>
      cases n <;> simp [execute_command, h1, h2, hc]
  | none =>
      by_cases hout :
          (((observedMsgs msgs none false).filterMap dataOf).map
            decode).flatten = [] <;>
        simp [execute_command, h1, h2, hc, hout]

/-- The mutable state of the WebSocket PTY reader task between iterations
(websocket_server.rs:216-281): the `accumulated` buffer and the time since
`last_send`, kept in microseconds so that the truncation performed by
`as_millis()` can be modelled exactly. -/
structure ReaderState where
  acc : List Nat
  sinceFlushUs : Nat
deriving DecidableEq, Repr

/-- The outcome of one reader-task iteration: the state carried to the next
iteration, the `Output` frame payload flushed to the WebSocket sender (if
any), and whether the loop breaks. -/
structure ReaderIterOut where
  state : ReaderState
  emitted : Option (List Nat)
  stop : Bool
deriving DecidableEq, Repr

/-- One iteration of the reader task's loop (websocket_server.rs:221-280).
`dtUs` is the wall-clock time this iteration took before the checks run, so
the `last_send.elapsed()` the code reads is `st.sinceFlushUs + dtUs`;
`as_millis()` truncates to whole milliseconds (`/ 1000`); `res` is the
`read_from_pty` result. On data: append, flush when
`accumulated.len() > 4096 || elapsed.as_millis() > 5`. On empty bytes:
flush when `!accumulated.is_empty() && elapsed.as_millis() > 5`. Every
flush clears the accumulator and resets `last_send`. Any error breaks the
loop (the not-found/closed distinction only affects the log level). -/
def reader_iter (st : ReaderState) (dtUs : Nat)
    (res : Except SmError (List Nat)) : ReaderIterOut :=
  let elapsedUs := st.sinceFlushUs + dtUs
  match res with
  | .error _ => ⟨⟨st.acc, elapsedUs⟩, none, true⟩
  | .ok data =>
      if data = [] then
        if st.acc ≠ [] ∧ elapsedUs / 1000 > 5 then ⟨⟨[], 0⟩, some st.acc, false⟩
        else ⟨⟨st.acc, elapsedUs⟩, none, false⟩
      else
        if (st.acc ++ data).length > 4096 ∨ elapsedUs / 1000 > 5 then
          ⟨⟨[], 0⟩, some (st.acc ++ data), false⟩
        else ⟨⟨st.acc ++ data, elapsedUs⟩, none, false⟩

/-- The claim's flush condition after a non-empty read, following the
specification's words: the accumulator exceeds 4096 bytes or **at least**
5 ms have elapsed. Second, spec-side definition for comparison with the
code's strict `as_millis() > 5`. -/
def claim_flush_cond (accLen elapsedMs : Nat) : Prop :=
  accLen > 4096 ∨ 5 ≤ elapsedMs

/-- **C8, counterexample.** With an empty accumulator, a 1-byte read and
exactly 5 ms elapsed since the last flush, the claim's condition ("at least
5 ms have elapsed") demands a flush, but the code's `as_millis() > 5` does
not fire: the byte stays buffered and nothing is emitted. -/
theorem reader_iter_no_flush_at_five_ms :
    claim_flush_cond ((([] : List Nat) ++ [97]).length) ((0 + 5000) / 1000) ∧
    reader_iter ⟨[], 0⟩ 5000 (Except.ok [97]) = ⟨⟨[97], 5000⟩, none, false⟩ := by
  exact ⟨Or.inr (by decide), rfl⟩

/-- **C8, amended.** After a non-empty read the accumulated output is
flushed as a single frame exactly when the accumulator exceeds 4096 bytes or
**more than** 5 whole milliseconds (`as_millis() > 5`) have elapsed since
the last flush; after an empty (timed-out) read it is flushed iff the
accumulator is non-empty and more than 5 whole milliseconds have elapsed;
each flush empties the accumulator and resets the last-flush timestamp; an
error ends the task without emitting. -/
theorem reader_iter_flush_characterisation (st : ReaderState) (dtUs : Nat)
    (data : List Nat) :
    (data ≠ [] →
      ((reader_iter st dtUs (Except.ok data)).emitted = some (st.acc ++ data)
        ↔ ((st.acc ++ data).length > 4096 ∨
           (st.sinceFlushUs + dtUs) / 1000 > 5))) ∧
    (data = [] →
      ((reader_iter st dtUs (Except.ok data)).emitted = some st.acc ↔
        (st.acc ≠ [] ∧ (st.sinceFlushUs + dtUs) / 1000 > 5))) ∧
    ((reader_iter st dtUs (Except.ok data)).emitted ≠ none →
      (reader_iter st dtUs (Except.ok data)).state = ⟨[], 0⟩) ∧
    (∀ e, (reader_iter st dtUs (Except.error e)).stop = true ∧
      (reader_iter st dtUs (Except.error e)).emitted = none) := by
  refine ⟨?_, ?_, ?_, fun e => ⟨rfl, rfl⟩⟩
  · intro hd
    simp only [reader_iter, if_neg hd]
    split_ifs with hcond <;> simpa using hcond
  · intro hd
    subst hd
    simp only [reader_iter]
    split_ifs with h1 h2 <;>
      first
        | simpa using h2
        | simp_all
  · intro hne
    revert hne
    simp only [reader_iter]
    split_ifs <;> simp

/-- Witness for **C8**: with 6 ms elapsed a non-empty read flushes, and the
flush clears the accumulator and resets the timer. -/
theorem reader_iter_flush_characterisation_witness :
    (reader_iter ⟨[1], 0⟩ 6000 (Except.ok [2])).emitted = some ([1] ++ [2]) ∧
    (reader_iter ⟨[1], 0⟩ 6000 (Except.ok [2])).state = ⟨[], 0⟩ := by
  have h := reader_iter_flush_characterisation ⟨[1], 0⟩ 6000 [2]
  have he := (h.1 (by decide)).mpr (Or.inr (by decide))
  exact ⟨he, h.2.2.1 (by simp [he])⟩

/-- Whitespace test used by the tab-completion path: Rust
`char::is_whitespace` (Lean's `Char.isWhitespace` covers the ASCII cases
exercised by shell text). -/
def isWsChar (c : Char) : Bool := c.isWhitespace

/-- `str::split_whitespace`, accumulator style: split at maximal whitespace
runs, dropping empty pieces. `acc` holds the current word reversed. -/
def splitWsAux : List Char → List Char → List (List Char)
  | [], acc => if acc = [] then [] else [acc.reverse]
  | c :: cs, acc =>
      if isWsChar c then
        if acc = [] then splitWsAux cs []
        else acc.reverse :: splitWsAux cs []
      else splitWsAux cs (c :: acc)

/-- `text_before_cursor.split_whitespace().collect()`
(commands.rs:1319). -/
def split_whitespace (l : List Char) : List (List Char) := splitWsAux l []

/-- `&input[..cursor_position.min(input.len())]` (commands.rs:1318; the Rust
byte index is modelled as a character index — identical on ASCII input). -/
def text_before_cursor (input : List Char) (cursor : Nat) : List Char :=
  input.take (min cursor input.length)

/-- `words.last().copied().unwrap_or("")` (commands.rs:1320). -/
def word_to_complete (input : List Char) (cursor : Nat) : List Char :=
  ((split_whitespace (text_before_cursor input cursor)).getLast?).getD []

/-- `let is_first_word = words.len() <= 1` (commands.rs:1323). -/
def is_first_word (input : List Char) (cursor : Nat) : Bool :=
  decide ((split_whitespace (text_before_cursor input cursor)).length ≤ 1)

/-- Literal pieces of the two `format!` templates building the remote
completion command (commands.rs:1326-1335). -/
def cmdPartC : String := "compgen -c "

/-- Tail of the command-completion template. -/
def cmdTail : String := " 2>/dev/null || echo"

/-- Head of the file-completion template. -/
def cmdPartF : String := "compgen -f "

/-- `ls -1ap` fallback piece of the file-completion template. -/
def cmdLsPart : String := " 2>/dev/null || ls -1ap "

/-- `grep` piece of the file-completion template. -/
def cmdGrepPart : String := " 2>/dev/null | grep '^"

/-- Tail of the file-completion template. -/
def cmdGrepTail : String := "' || echo"

/-- `ls` target when the token is empty (commands.rs:1333). -/
def dotPath : String := "."

/-- The completion command `ssh_tab_complete` executes remotely
(commands.rs:1326-1335): `compgen -c <tok> …` when the token is the first
word, else `compgen -f <tok> … || ls -1ap <tok-or-dot> … | grep '^<tok>'
|| echo`. -/
def completion_cmd (input : List Char) (cursor : Nat) : List Char :=
  let tok := word_to_complete input cursor
  if is_first_word input cursor then
    cmdPartC.toList ++ tok ++ cmdTail.toList
  else
    cmdPartF.toList ++ tok ++ cmdLsPart.toList ++
      (if tok = [] then dotPath.toList else tok) ++
      cmdGrepPart.toList ++ tok ++ cmdGrepTail.toList

/-- Split at every `'\n'`; always returns one more segment than there are
newlines. -/
def splitNl : List Char → List (List Char)
  | [] => [[]]
  | c :: cs =>
      if c = '\n' then [] :: splitNl cs
      else
        match splitNl cs with
        | s :: rest => (c :: s) :: rest
        | [] => [[c]]

/-- Strip one trailing `'\r'` (for a line that was terminated by `"\r\n"`). -/
def stripCr (l : List Char) : List Char :=
  match l.getLast? with
  | some c => if c = '\r' then l.dropLast else l
  | none => l

/-- Rust `str::lines`: every segment before a `'\n'` loses a trailing
`'\r'`; the final segment (after the last newline) is kept as-is and only
when non-empty. -/
def rust_lines (l : List Char) : List (List Char) :=
  let segs := splitNl l
  segs.dropLast.map stripCr ++
    (match segs.getLast? with
     | some last => if last = [] then [] else [last]
     | none => [])

/-- Rust `str::trim`: drop whitespace from both ends. -/
def trimChars (l : List Char) : List Char :=
  ((l.dropWhile isWsChar).reverse.dropWhile isWsChar).reverse

/-- The completion post-processing (commands.rs:1339-1344): the lines of the
command's output that are non-empty and start with the token, trimmed, the
first 50 of them. -/
def tab_completions (tok output : List Char) : List (List Char) :=
  (((rust_lines output).filter
      (fun s => !s.isEmpty && tok.isPrefixOf s)).map trimChars).take 50

/-- The character-by-character loop of `find_common_prefix`
(commands.rs:1381-1387): walk the first string, keeping each character all
strings agree on at that index, stopping at the first mismatch. -/
def find_common_pre_loop (strings : List (List Char)) :
    List Char → Nat → List Char
  | [], _ => []
  | c :: cs, i =>
      if strings.all (fun s => s[i]? = some c) then
        c :: find_common_pre_loop strings cs (i + 1)
      else []

/-- `find_common_prefix` (commands.rs:1370-1394; the Rust name ends in a
word this file avoids in identifiers): `None` for an empty input, the single
string itself for a singleton, otherwise the common prefix unless it is
empty or equal to the first string. -/
def find_common_pre (strings : List (List Char)) : Option (List Char) :=
  match strings with
  | [] => none
  | [s] => some s
  | s0 :: s1 :: rest =>
      let p := find_common_pre_loop (s0 :: s1 :: rest) s0 0
      if p = [] ∨ p = s0 then none else some p

/-- `TabCompletionResponse` (commands.rs:1295-1301); the `common` field
models the Rust field holding the common prefix. -/
structure TabResponse where
  success : Bool
  completions : List (List Char)
  common : Option (List Char)
  error : Option ExecErr
deriving DecidableEq, Repr

/-- The pure part of `ssh_tab_complete` (commands.rs:1337-1366) downstream
of `execute_command` (whose result over the built `completion_cmd` is the
`execResult` parameter; the session lookup happens before it): on success,
the filtered/trimmed/truncated completions plus the common prefix when more
than one completion remains; on error, a failure response. -/
def ssh_tab_complete (input : List Char) (cursor : Nat)
    (execResult : Except ExecErr (List Char)) : TabResponse :=
  let tok := word_to_complete input cursor
  match execResult with
  | .ok output =>
      let cs := tab_completions tok output
      { success := true, completions := cs,
        common := if 1 < cs.length then find_common_pre cs else none,
        error := none }
  | .error e =>
      { success := false, completions := [], common := none,
        error := some e }

/-- Every word produced by `splitWsAux` is free of whitespace characters
(given a whitespace-free accumulator). -/
theorem splitWsAux_no_ws (l : List Char) :
    ∀ (acc : List Char), (∀ c ∈ acc, isWsChar c = false) →
      ∀ w ∈ splitWsAux l acc, ∀ c ∈ w, isWsChar c = false := by
  induction l with
  | nil =>
    intro acc hacc w hw
    by_cases h : acc = []
    · simp [splitWsAux, h] at hw
    · simp only [splitWsAux, if_neg h, List.mem_singleton] at hw
      subst hw
      intro c hc
      exact hacc c (List.mem_reverse.mp hc)
  | cons a l ih =>
    intro acc hacc w hw
    by_cases hws : isWsChar a = true
    · by_cases h : acc = []
      · rw [splitWsAux, if_pos hws, if_pos h] at hw
        exact ih [] (by simp) w hw
      · rw [splitWsAux, if_pos hws, if_neg h] at hw
        rcases List.mem_cons.mp hw with hw | hw
        · subst hw
          intro c hc
          exact hacc c (List.mem_reverse.mp hc)
        · exact ih [] (by simp) w hw
    · rw [splitWsAux, if_neg hws] at hw
      refine ih (a :: acc) ?_ w hw
      intro c hc
      rcases List.mem_cons.mp hc with rfl | hc
      · exact Bool.not_eq_true _ |>.mp hws
      · exact hacc c hc

/-- The token to complete contains no whitespace character. -/
theorem word_to_complete_no_ws (input : List Char) (cursor : Nat) :
    ∀ c ∈ word_to_complete input cursor, isWsChar c = false := by
  unfold word_to_complete
  cases hl : (split_whitespace (text_before_cursor input cursor)).getLast?
    with
  | none => simp
  | some w =>
    simp only [Option.getD_some]
    have hw : w ∈ split_whitespace (text_before_cursor input cursor) := by
      obtain ⟨hne, rfl⟩ :=
        List.mem_getLast?_eq_getLast (Option.mem_def.mpr hl)
      exact List.getLast_mem hne
    exact splitWsAux_no_ws _ [] (by simp) w hw

/-- A Boolean `isPrefixOf` yields the `IsPrefix` relation. -/
theorem isPrefixOf_imp (l₁ l₂ : List Char) :
    l₁.isPrefixOf l₂ = true → l₁ <+: l₂ := by
  intro h
  induction l₁ generalizing l₂ with
  | nil => exact List.nil_prefix
  | cons a t ih =>
    cases l₂ with
    | nil => simp [List.isPrefixOf] at h
    | cons b s =>
      simp only [List.isPrefixOf, Bool.and_eq_true, beq_iff_eq] at h
      obtain ⟨rfl, h2⟩ := h
      exact List.cons_prefix_cons.mpr ⟨rfl, ih s h2⟩

/-- A whitespace-free prefix survives dropping an all-whitespace suffix. -/
theorem prefix_of_append_ws : ∀ (m tok w : List Char),
    (∀ c ∈ tok, isWsChar c = false) → (∀ c ∈ w, isWsChar c = true) →
    tok <+: m ++ w → tok <+: m := by
  intro m
  induction m with
  | nil =>
    intro tok w htok hw h
    cases tok with
    | nil => exact List.nil_prefix
    | cons c t =>
      exfalso
      obtain ⟨s, hs⟩ := h
      rw [List.nil_append] at hs
      have hc : c ∈ w := by
        rw [← hs]
        exact List.mem_cons_self _ _
      have h1 := hw c hc
      rw [htok c (List.mem_cons_self c t)] at h1
      exact Bool.false_ne_true h1
  | cons a m ih =>
    intro tok w htok hw h
    cases tok with
    | nil => exact List.nil_prefix
    | cons c t =>
      rw [List.cons_append, List.cons_prefix_cons] at h
      obtain ⟨rfl, ht⟩ := h
      refine List.cons_prefix_cons.mpr ⟨rfl, ?_⟩
      exact ih t w (fun x hx => htok x (List.mem_cons_of_mem _ hx)) hw ht

/-- A whitespace-free prefix of a line is still a prefix of the trimmed
line. -/
theorem prefix_trimChars (tok s : List Char)
    (htok : ∀ c ∈ tok, isWsChar c = false) (h : tok <+: s) :
    tok <+: trimChars s := by
  cases tok with
  | nil => exact List.nil_prefix
  | cons c t =>
    obtain ⟨rest, hs⟩ := h
    have hcw : isWsChar c = false := htok c (List.mem_cons_self c t)
    have hdrop : s.dropWhile isWsChar = s := by
      rw [← hs]
      rw [List.cons_append, List.dropWhile_cons, hcw]
      simp
    unfold trimChars
    rw [hdrop]
    have hsr := List.takeWhile_append_dropWhile isWsChar s.reverse
    have hsplit : (s.reverse.dropWhile isWsChar).reverse ++
        (s.reverse.takeWhile isWsChar).reverse = s := by
      have h2 := congrArg List.reverse hsr
      rw [List.reverse_append, List.reverse_reverse] at h2
      exact h2
    have hws2 : ∀ x ∈ (s.reverse.takeWhile isWsChar).reverse,
        isWsChar x = true := by
      intro x hx
      exact List.mem_takeWhile_imp (List.mem_reverse.mp hx)
    refine prefix_of_append_ws _ (c :: t) _ htok hws2 ?_
    rw [hsplit]
    exact ⟨rest, hs⟩

/-- The file-completion template never starts with the command-completion
head: the two diverge at index 9 (`'c'` vs `'f'`). -/
theorem partC_not_prefix_of_partF (r : List Char) :
    ¬ (cmdPartC.toList <+: cmdPartF.toList ++ r) := by
  intro h
  obtain ⟨s, hs⟩ := h
  have e1 : (cmdPartC.toList ++ s)[9]? = some 'c' := by
    rw [List.getElem?_append, if_pos (by decide)]
    decide
  have e2 : (cmdPartF.toList ++ r)[9]? = some 'f' := by
    rw [List.getElem?_append, if_pos (by decide)]
    decide
  rw [hs, e2] at e1
  exact absurd e1 (by decide)

/-- Converse divergence: the command-completion template never starts with
the file-completion head. -/
theorem partF_not_prefix_of_partC (r : List Char) :
    ¬ (cmdPartF.toList <+: cmdPartC.toList ++ r) := by
  intro h
  obtain ⟨s, hs⟩ := h
  have e1 : (cmdPartF.toList ++ s)[9]? = some 'f' := by
    rw [List.getElem?_append, if_pos (by decide)]
    decide
  have e2 : (cmdPartC.toList ++ r)[9]? = some 'c' := by
    rw [List.getElem?_append, if_pos (by decide)]
    decide
  rw [hs, e2] at e1
  exact absurd e1 (by decide)

/-- **C9.** `ssh_tab_complete` completes the last whitespace-delimited token
before the cursor: the command it runs is the `compgen -c` template exactly
when that token is the first token and the `compgen -f`/`ls -1ap` template
otherwise; for every server output it returns at most 50 completions, each
starting with the token; and the common prefix is `null` whenever at most
one completion remains (in particular when the computed prefix could only
equal the single match). -/
theorem ssh_tab_complete_spec (input : List Char) (cursor : Nat)
    (res : Except ExecErr (List Char)) :
    (cmdPartC.toList <+: completion_cmd input cursor ↔
      is_first_word input cursor = true) ∧
    (cmdPartF.toList <+: completion_cmd input cursor ↔
      is_first_word input cursor = false) ∧
    (ssh_tab_complete input cursor res).completions.length ≤ 50 ∧
    (∀ c ∈ (ssh_tab_complete input cursor res).completions,
      word_to_complete input cursor <+: c) ∧
    ((ssh_tab_complete input cursor res).completions.length ≤ 1 →
      (ssh_tab_complete input cursor res).common = none) := by
  refine ⟨?_, ?_, ?_, ?_, ?_⟩
  · by_cases hf : is_first_word input cursor = true
    · refine iff_of_true ?_ hf
      simp only [completion_cmd, if_pos hf]
      exact List.prefix_append _ _
    · refine iff_of_false ?_ hf
      simp only [completion_cmd, if_neg hf]
      exact partC_not_prefix_of_partF _
  · by_cases hf : is_first_word input cursor = true
    · refine iff_of_false ?_ (by simp [hf])
      simp only [completion_cmd, if_pos hf]
      exact partF_not_prefix_of_partC _
    · refine iff_of_true ?_ ((Bool.not_eq_true _).mp hf)
      simp only [completion_cmd, if_neg hf]
      exact List.prefix_append _ _
  · cases res with
    | ok output =>
        simp only [ssh_tab_complete]
        exact List.length_take_le _ _
    | error e => simp [ssh_tab_complete]
  · cases res with
    | ok output =>
        intro c hc
        simp only [ssh_tab_complete] at hc
        have hc' := List.mem_of_mem_take hc
        obtain ⟨s, hs, rfl⟩ := List.mem_map.mp hc'
        obtain ⟨-, hpred⟩ := List.mem_filter.mp hs
        simp only [Bool.and_eq_true] at hpred
        exact prefix_trimChars _ s (word_to_complete_no_ws input cursor)
          (isPrefixOf_imp _ s hpred.2)
    | error e => simp [ssh_tab_complete]
  · cases res with
    | ok output =>
        intro hlen
        simp only [ssh_tab_complete] at hlen ⊢
        rw [if_neg (Nat.not_lt.mpr hlen)]
    | error e => intro _; simp [ssh_tab_complete]

/-- Input for the C9 witness. -/
def ecInput : String := "ec"

/-- Server output for the C9 witness: a single completion line. -/
def echoOut : String := "echo\n"

/-- The single completion the witness expects. -/
def echoLine : String := "echo"

/-- Witness for **C9** at a concrete input: completing `"ec"` at cursor 2
against the output `"echo\n"` yields at most 50 completions, the returned
completion `"echo"` starts with the token, and with a single completion the
common prefix is `null`. -/
theorem ssh_tab_complete_spec_witness :
    (ssh_tab_complete ecInput.toList 2
      (Except.ok echoOut.toList)).completions.length ≤ 50 ∧
    word_to_complete ecInput.toList 2 <+: echoLine.toList ∧
    (ssh_tab_complete ecInput.toList 2
      (Except.ok echoOut.toList)).common = none := by
  have h := ssh_tab_complete_spec ecInput.toList 2
    (Except.ok echoOut.toList)
  refine ⟨h.2.2.1, ?_, h.2.2.2.2 (by decide)⟩
  exact h.2.2.2.1 echoLine.toList (by decide)

end Ssh
